import Mathlib

/-!
Verification of the `telegraph-rs` HTML-to-content-tree converter.

This file gives a shallow embedding of the converter core of the repository:
the data model of `src/types.rs` (the `Node` / `NodeElement` content tree),
the conversion functions `html_to_node` and `html_to_node_inner` of
`src/lib.rs` (lines 448-491), and the serde serialization / untagged
deserialization behaviour derived for the content tree.

The HTML parser (the `libxml` crate) is an external collaborator: it is
modelled abstractly by a DOM-node type exposing exactly the capabilities the
converter uses (`get_type`, `get_name`, `get_content`, `get_attributes`,
`get_child_nodes`, `get_root_element`, `get_first_element_child`).  The
conversion functions themselves are translated line by line from the source;
panicking `.unwrap()` calls are embedded as `Option` (a `none` result means
the Rust code panics).

Rust `HashMap<String, Option<String>>` attribute maps are embedded as
association lists in the map's iteration order; a Rust `Vec` is embedded as a
list.  Because the content tree, the JSON tree and the DOM tree all recurse
through sequence types, each is defined as a mutual inductive family with an
explicit list spine so that every function below is structural and computable
by the kernel.
-/

namespace TelegraphRs

/-- Node kinds of the external `libxml` DOM (`libxml::tree::NodeType`).
Only `TextNode` and `ElementNode` are inspected by the converter; every other
kind falls into its wildcard arm. -/
inductive NodeType where
  | ElementNode
  | AttributeNode
  | TextNode
  | CDataSectionNode
  | EntityRefNode
  | EntityNode
  | PiNode
  | CommentNode
  | DocumentNode
  | DocumentTypeNode
  | DocumentFragNode
  | NotationNode
  | HtmlDocumentNode
  | DtdNode
deriving DecidableEq, Repr

mutual
/-- A node of the external parser's DOM (`libxml::tree::Node`), abstracted to
the capabilities the converter consumes: its kind (`get_type`, which in the
`libxml` binding returns an `Option`), its name, its raw text content, its
attribute map in iteration order, and its ordered children. -/
inductive DomNode where
  | mk (ty : Option NodeType) (name : String) (content : String)
       (attributes : List (String × Option String)) (children : DomList) : DomNode
/-- Ordered sequence of DOM children (explicit spine for structural recursion). -/
inductive DomList where
  | nil : DomList
  | cons (hd : DomNode) (tl : DomList) : DomList
end

/-- `libxml::tree::Node::get_type`. -/
def DomNode.get_type : DomNode → Option NodeType
  | .mk ty _ _ _ _ => ty

/-- `libxml::tree::Node::get_name`. -/
def DomNode.get_name : DomNode → String
  | .mk _ name _ _ _ => name

/-- `libxml::tree::Node::get_content` (raw text payload of a text node). -/
def DomNode.get_content : DomNode → String
  | .mk _ _ content _ _ => content

/-- `libxml::tree::Node::get_attributes`, a `HashMap` given here in its
iteration order. -/
def DomNode.get_attributes : DomNode → List (String × Option String)
  | .mk _ _ _ attributes _ => attributes

/-- `libxml::tree::Node::get_child_nodes`. -/
def DomNode.get_child_nodes : DomNode → DomList
  | .mk _ _ _ _ children => children

/-- `Vec::is_empty` on a DOM child sequence. -/
def DomList.isEmpty : DomList → Bool
  | .nil => true
  | .cons _ _ => false

/-- First element-kind node of a DOM child sequence. -/
def DomList.firstElement : DomList → Option DomNode
  | .nil => none
  | .cons d tl =>
    match d.get_type with
    | some NodeType.ElementNode => some d
    | _ => tl.firstElement

/-- `libxml::tree::Node::get_first_element_child`: the first child of element
kind, if any. -/
def DomNode.get_first_element_child (n : DomNode) : Option DomNode :=
  n.get_child_nodes.firstElement

/-- Result of `Parser::parse_string`: a parsed document, whose root element
may be absent (`Document::get_root_element` returns an `Option`). -/
structure Document where
  root : Option DomNode

/-- `libxml::tree::Document::get_root_element`. -/
def Document.get_root_element (d : Document) : Option DomNode :=
  d.root

mutual
/-- `types.rs` line 81: `enum Node`, either a DOM text node or a
`NodeElement` object (serde-untagged in the serialized form). -/
inductive Node where
  | Text (s : String) : Node
  | NodeElement (e : NodeElement) : Node
/-- `types.rs` line 88: `struct NodeElement` with a tag, an optional
attribute map (`Option` of a `HashMap` in iteration order) and optional
children (`Option` of a `Vec`). -/
inductive NodeElement where
  | mk (tag : String) (attrs : Option (List (String × Option String)))
       (children : OptNodeList) : NodeElement
/-- `Option` of a node sequence (`Option` of `Vec` of `Node` in the source),
kept inside the inductive family so recursion stays structural.  `none` is
the absent field, `some` carries the sequence. -/
inductive OptNodeList where
  | none : OptNodeList
  | some (cs : NodeList) : OptNodeList
/-- Sequence of content nodes (`Vec` of `Node`), explicit spine. -/
inductive NodeList where
  | nil : NodeList
  | cons (hd : Node) (tl : NodeList) : NodeList
end

/-- Field `tag` of `NodeElement`. -/
def NodeElement.tag : NodeElement → String
  | .mk t _ _ => t

/-- Field `attrs` of `NodeElement`. -/
def NodeElement.attrs : NodeElement → Option (List (String × Option String))
  | .mk _ a _ => a

/-- Field `children` of `NodeElement`. -/
def NodeElement.children : NodeElement → OptNodeList
  | .mk _ _ c => c

mutual
/-- JSON values as produced by `serde_json` (only the fragment the content
tree uses: null, strings, arrays, objects with ordered fields). -/
inductive Json where
  | null : Json
  | str (s : String) : Json
  | arr (elems : JsonList) : Json
  | obj (fields : JsonFields) : Json
/-- Ordered JSON array elements (explicit spine). -/
inductive JsonList where
  | nil : JsonList
  | cons (hd : Json) (tl : JsonList) : JsonList
/-- Ordered JSON object fields (explicit spine). -/
inductive JsonFields where
  | nil : JsonFields
  | cons (key : String) (val : Json) (tl : JsonFields) : JsonFields
end

/-- The keys of an ordered JSON field sequence, in order. -/
def JsonFields.keys : JsonFields → List String
  | .nil => []
  | .cons k _ tl => k :: tl.keys

/-- The keys of the top-level object of a JSON value (empty for non-objects). -/
def jsonTopKeys : Json → List String
  | .obj fs => fs.keys
  | _ => []

/-- One hex digit, lowercase, as written by `serde_json`. -/
def hexDigit (n : Nat) : Char :=
  if n < 10 then Char.ofNat (48 + n) else Char.ofNat (87 + n)

/-- `serde_json` escaping of one character inside a JSON string literal:
quote and backslash are escaped, the named control characters use their short
escapes, the remaining control characters use a `\u00XX` escape, and every
other character is emitted verbatim. -/
def escapeChar (c : Char) : String :=
  if c = '\"' then "\\\""
  else if c = '\\' then "\\\\"
  else if c = '\x08' then "\\b"
  else if c = '\x0c' then "\\f"
  else if c = '\n' then "\\n"
  else if c = '\r' then "\\r"
  else if c = '\t' then "\\t"
  else if c.toNat < 32 then
    "\\u00" ++ String.singleton (hexDigit (c.toNat / 16)) ++ String.singleton (hexDigit (c.toNat % 16))
  else String.singleton c

/-- Escape every character of a character sequence. -/
def escapeChars : List Char → String
  | [] => ""
  | c :: cs => escapeChar c ++ escapeChars cs

/-- A JSON string literal as written by `serde_json::to_string`. -/
def renderString (s : String) : String :=
  "\"" ++ escapeChars s.data ++ "\""

mutual
/-- Compact rendering of a JSON value, as `serde_json::to_string` writes it
(no whitespace, fields and elements comma-separated in order). -/
def Json.render : Json → String
  | .null => "null"
  | .str s => renderString s
  | .arr xs => "[" ++ JsonList.render xs ++ "]"
  | .obj fs => "\x7b" ++ JsonFields.render fs ++ "\x7d"
/-- Comma-separated rendering of array elements. -/
def JsonList.render : JsonList → String
  | .nil => ""
  | .cons x .nil => Json.render x
  | .cons x (.cons y tl) => Json.render x ++ "," ++ JsonList.render (.cons y tl)
/-- Comma-separated rendering of object fields. -/
def JsonFields.render : JsonFields → String
  | .nil => ""
  | .cons k v .nil => renderString k ++ ":" ++ Json.render v
  | .cons k v (.cons k2 v2 tl) =>
    renderString k ++ ":" ++ Json.render v ++ "," ++ JsonFields.render (.cons k2 v2 tl)
end

/-- The attribute map rendered to JSON fields: each value is a string, an
absent value (`Option::None`) is `null` (serde serialization of
`HashMap<String, Option<String>>`), in iteration order. -/
def attrFieldsOf : List (String × Option String) → JsonFields
  | [] => .nil
  | (k, v) :: tl =>
    .cons k (match v with | none => Json.null | some s => Json.str s) (attrFieldsOf tl)

/-- The attribute map as a JSON object. -/
def attrsToJson (l : List (String × Option String)) : Json :=
  Json.obj (attrFieldsOf l)

mutual
/-- serde serialization of `Node` (untagged): a `Text` is a bare JSON
string, a `NodeElement` is an object. -/
def nodeToJson : Node → Json
  | .Text s => Json.str s
  | .NodeElement e => nodeElementToJson e
/-- serde serialization of `NodeElement`: field order is the declaration
order `tag`, `attrs`, `children`; `attrs` and `children` are skipped when
`None` (`skip_serializing_if = "Option::is_none"`, `types.rs` lines 97 and
100). -/
def nodeElementToJson : NodeElement → Json
  | .mk tag attrs children =>
    Json.obj (JsonFields.cons "tag" (Json.str tag)
      (match attrs with
       | none => childrenJsonFields children
       | some a => JsonFields.cons "attrs" (attrsToJson a) (childrenJsonFields children)))
/-- The `children` field contribution: absent when `None`, an array when
present. -/
def childrenJsonFields : OptNodeList → JsonFields
  | .none => JsonFields.nil
  | .some cs => JsonFields.cons "children" (Json.arr (nodeListToJsonList cs)) JsonFields.nil
/-- serde serialization of a `Vec<Node>`. -/
def nodeListToJsonList : NodeList → JsonList
  | .nil => JsonList.nil
  | .cons n tl => JsonList.cons (nodeToJson n) (nodeListToJsonList tl)
end

/-- serde serialization of an `Option<Node>` (used at the top level of
`html_to_node`, which serializes a `Vec<Option<Node>>`): `None` becomes the
JSON `null`. -/
def optionNodeToJson : Option Node → Json
  | none => Json.null
  | some n => nodeToJson n

/-- serde serialization of a `Vec<Option<Node>>` into JSON array elements. -/
def serializeTop : List (Option Node) → JsonList
  | [] => JsonList.nil
  | x :: tl => JsonList.cons (optionNodeToJson x) (serializeTop tl)

mutual
/-- `lib.rs` lines 464-491, `html_to_node_inner`: a text node becomes
`Node::Text` of its raw content; an element node becomes `Node::NodeElement`
with its name as tag, its attribute map if non-empty (else `None`), and as
children the `collect::<Option<Vec<_>>>()` of the recursively converted
child nodes if there are any child nodes (else `None`); every other node
kind becomes `None`. -/
def html_to_node_inner : DomNode → Option Node
  | .mk ty name content attributes childs =>
    match ty with
    | some NodeType.TextNode => some (Node.Text content)
    | some NodeType.ElementNode =>
      some (Node.NodeElement (NodeElement.mk name
        (if attributes.isEmpty then none else some attributes)
        (if childs.isEmpty then OptNodeList.none
         else
           match childrenCollect childs with
           | none => OptNodeList.none
           | some ns => OptNodeList.some ns)))
    | _ => none
/-- The `childs.into_iter().map(html_to_node_inner).collect::<Option<Vec<_>>>()`
of `lib.rs` lines 482-485: `none` as soon as any child converts to `None`,
otherwise the sequence of all converted children. -/
def childrenCollect : DomList → Option NodeList
  | .nil => some NodeList.nil
  | .cons d tl =>
    match html_to_node_inner d with
    | none => none
    | some n =>
      match childrenCollect tl with
      | none => none
      | some ns => some (NodeList.cons n ns)
end

/-- The `nodes` vector of `lib.rs` lines 456-460:
`node.get_child_nodes().into_iter().map(html_to_node_inner).collect::<Vec<_>>()`,
a vector of `Option<Node>`. -/
def mapInner : DomList → List (Option Node)
  | .nil => []
  | .cons d tl => html_to_node_inner d :: mapInner tl

/-- `lib.rs` lines 448-462, `html_to_node`: the parser result is unwrapped
(`none` here models the Rust panic when `parse_string` fails), the root
element is unwrapped, its first element child is unwrapped, that node's
children are mapped through `html_to_node_inner` into a `Vec<Option<Node>>`,
and the vector is serialized with `serde_json::to_string`. -/
def html_to_node (parse_result : Option Document) : Option String :=
  match parse_result with
  | none => none
  | some document =>
    match document.get_root_element with
    | none => none
    | some root =>
      match root.get_first_element_child with
      | none => none
      | some node =>
        some (Json.render (Json.arr (serializeTop (mapInner node.get_child_nodes))))

/-- Deserialization of one attribute value, as the serde-derived
deserializer of `Option<String>` map values reads it: `null` is `None`, a
string is `Some`, anything else is an error. -/
def attrValueFromJson : Json → Option (Option String)
  | Json.null => some none
  | Json.str s => some (some s)
  | _ => none

/-- Deserialization of the fields of an `attrs` JSON object into the
attribute association list (the entry sequence fed to the `HashMap`). -/
def attrListFromFields : JsonFields → Option (List (String × Option String))
  | .nil => some []
  | .cons k v tl =>
    match attrValueFromJson v with
    | none => none
    | some w =>
      match attrListFromFields tl with
      | none => none
      | some l => some ((k, w) :: l)

/-- Deserialization of the `attrs` field value, as serde reads an
`Option<HashMap<String, Option<String>>>` field: `null` is `None`, an object
is `Some` of the map, anything else is an error. -/
def attrsValueFromJson : Json → Option (Option (List (String × Option String)))
  | Json.null => some none
  | Json.obj afs =>
    match attrListFromFields afs with
    | some l => some (some l)
    | none => none
  | _ => none

mutual
/-- The serde-derived untagged deserializer of `Node` (`types.rs` line 80):
the variants are tried in declaration order, so a JSON string becomes
`Node::Text` and a JSON object is read as a `NodeElement`; any other JSON
value fails. -/
def nodeFromJson : Json → Option Node
  | Json.str s => some (Node.Text s)
  | Json.obj fs => visitFields fs none none none
  | _ => none
/-- The serde-derived map visitor for `struct NodeElement`: fields are
consumed in input order, a duplicate known field or a wrongly-typed value is
an error, unknown fields are ignored, and at the end `tag` must have been
seen while `attrs` and `children` default to `None`. -/
def visitFields : JsonFields → Option String →
    Option (Option (List (String × Option String))) → Option OptNodeList → Option Node
  | .nil, tagAcc, attrsAcc, childrenAcc =>
    match tagAcc with
    | some t =>
      some (Node.NodeElement (NodeElement.mk t (attrsAcc.getD none)
        (childrenAcc.getD OptNodeList.none)))
    | none => none
  | .cons k v tl, tagAcc, attrsAcc, childrenAcc =>
    if k = "tag" then
      match tagAcc, v with
      | none, Json.str s => visitFields tl (some s) attrsAcc childrenAcc
      | _, _ => none
    else if k = "attrs" then
      match attrsAcc, attrsValueFromJson v with
      | none, some a => visitFields tl tagAcc (some a) childrenAcc
      | _, _ => none
    else if k = "children" then
      match childrenAcc, v with
      | none, Json.null => visitFields tl tagAcc attrsAcc (some OptNodeList.none)
      | none, Json.arr js =>
        match nodeListFromJsonList js with
        | some ns => visitFields tl tagAcc attrsAcc (some (OptNodeList.some ns))
        | none => none
      | _, _ => none
    else visitFields tl tagAcc attrsAcc childrenAcc
/-- Deserialization of a JSON array into a `Vec<Node>`: every element must
deserialize. -/
def nodeListFromJsonList : JsonList → Option NodeList
  | .nil => some NodeList.nil
  | .cons j tl =>
    match nodeFromJson j, nodeListFromJsonList tl with
    | some n, some ns => some (NodeList.cons n ns)
    | _, _ => none
end

mutual
/-- All `NodeElement`s occurring in a content node (the node itself if it is
an element, plus recursively those of its children), used to state
tree-wide invariants of the conversion output. -/
def elemsOfNode : Node → List NodeElement
  | .Text _ => []
  | .NodeElement e => e :: elemsOfElem e
/-- All `NodeElement`s strictly inside an element (its retained children's
elements). -/
def elemsOfElem : NodeElement → List NodeElement
  | .mk _ _ c => elemsOfOpt c
/-- Elements below an optional child sequence. -/
def elemsOfOpt : OptNodeList → List NodeElement
  | .none => []
  | .some cs => elemsOfList cs
/-- Elements below each node of a sequence. -/
def elemsOfList : NodeList → List NodeElement
  | .nil => []
  | .cons n tl => elemsOfNode n ++ elemsOfList tl
end

/-- The well-formedness the conversion guarantees for one element: the
`attrs` field is never a present-but-empty map and the `children` field is
never a present-but-empty sequence. -/
def NodeElement.noEmptyOptional (e : NodeElement) : Prop :=
  e.attrs ≠ some [] ∧ e.children ≠ OptNodeList.some NodeList.nil

/-- Round-trip property of an optional child sequence (used as an induction
motive): a present sequence deserializes back from its serialization. -/
def childrenRound : OptNodeList → Prop
  | .none => True
  | .some cs => nodeListFromJsonList (nodeListToJsonList cs) = some cs

/-! ### Concrete parser outputs for the specification scenarios

The parser is an external collaborator (spec section 2); the values below
are the DOM trees a compliant HTML parser produces for the concrete
scenario inputs of spec section 8: the fragment is wrapped in an
`html`/`body` document, text becomes text nodes, comments become comment
nodes, and a value-less attribute carries an absent value. -/

/-- Text node with content `x`. -/
def textX : DomNode := .mk (some NodeType.TextNode) "text" "x" [] .nil

/-- Element `<span>x</span>`. -/
def spanX : DomNode :=
  .mk (some NodeType.ElementNode) "span" "x" [] (.cons textX .nil)

/-- The comment node of `<!-- comment -->`. -/
def commentNode : DomNode :=
  .mk (some NodeType.CommentNode) "comment" " comment " [] .nil

/-- Element `<div><!-- comment --><span>x</span></div>`. -/
def divWithComment : DomNode :=
  .mk (some NodeType.ElementNode) "div" "x" [] (.cons commentNode (.cons spanX .nil))

/-- A `body` element wrapping a given child sequence. -/
def bodyOf (cs : DomList) : DomNode :=
  .mk (some NodeType.ElementNode) "body" "" [] cs

/-- An `html` root wrapping a `body` with the given children, as the parsed
document of a fragment. -/
def docOf (cs : DomList) : Document :=
  ⟨some (.mk (some NodeType.ElementNode) "html" "" [] (.cons (bodyOf cs) .nil))⟩

/-- Parsed document of `<div><!-- comment --><span>x</span></div>`. -/
def docC1 : Document := docOf (.cons divWithComment .nil)

/-- Text node with content `a`. -/
def textA : DomNode := .mk (some NodeType.TextNode) "text" "a" [] .nil

/-- Text node with content `b`. -/
def textB : DomNode := .mk (some NodeType.TextNode) "text" "b" [] .nil

/-- Element `<p>a</p>`. -/
def pA : DomNode := .mk (some NodeType.ElementNode) "p" "a" [] (.cons textA .nil)

/-- Element `<p>b</p>`. -/
def pB : DomNode := .mk (some NodeType.ElementNode) "p" "b" [] (.cons textB .nil)

/-- The comment node of `<!-- c -->`. -/
def commentC : DomNode :=
  .mk (some NodeType.CommentNode) "comment" " c " [] .nil

/-- Parsed document of `<p>a</p><!-- c --><p>b</p>`: the comment sits between
its element siblings in the body. -/
def docC2 : Document := docOf (.cons pA (.cons commentC (.cons pB .nil)))

/-- Parsed document of the empty fragment: a rooted document whose body has
no child nodes. -/
def docEmpty : Document := docOf .nil

/-- Text node with content `Hello, world`. -/
def textHello : DomNode :=
  .mk (some NodeType.TextNode) "text" "Hello, world" [] .nil

/-- Element `<p>Hello, world</p>`. -/
def pHello : DomNode :=
  .mk (some NodeType.ElementNode) "p" "Hello, world" [] (.cons textHello .nil)

/-- Parsed document of `<p>Hello, world</p>`. -/
def docHello : Document := docOf (.cons pHello .nil)

/-- Element `<input disabled>`: one attribute whose value is absent. -/
def inputDisabled : DomNode :=
  .mk (some NodeType.ElementNode) "input" "" [("disabled", none)] .nil

/-- Parsed document of `<input disabled>`. -/
def docInput : Document := docOf (.cons inputDisabled .nil)

/-- `error.rs` lines 20-25: the crate's entire error taxonomy.  The payloads
of the two external error types are abstracted to strings; the variant
inventory is exactly that of the source.  There is no parse-error variant,
and `html_to_node` does not return this type at all (its Rust signature is
`fn(&str) -> String`). -/
inductive Error where
  | ReqwestError (e : String) : Error
  | ApiError (s : String) : Error
  | IoError (e : String) : Error

/-! ### Helper lemmas -/

/-- Collecting a non-empty child sequence never yields the empty sequence:
the `cons` case of `childrenCollect` only ever returns a `cons`. -/
theorem childrenCollect_cons_ne_nil (d : DomNode) (tl : DomList) (ns : NodeList)
    (h : childrenCollect (DomList.cons d tl) = some ns) : ns ≠ NodeList.nil := by
  rw [childrenCollect] at h
  cases hi : html_to_node_inner d with
  | none => rw [hi] at h; exact absurd h (by simp)
  | some n =>
    rw [hi] at h
    cases hc : childrenCollect tl with
    | none => rw [hc] at h; exact absurd h (by simp)
    | some ns2 =>
      rw [hc] at h
      simp only [Option.some.injEq] at h
      subst h
      intro hcontra
      exact absurd hcontra (by simp)

/-- Every element produced by the conversion, anywhere in the produced tree,
has no present-but-empty `attrs` map and no present-but-empty `children`
sequence: the source replaces an empty attribute map by `None`
(`lib.rs` lines 470-475) and an empty child sequence by `None`
(`lib.rs` lines 478-480), and the collect of a non-empty child sequence is
never empty. -/
theorem conversion_noEmptyOptional (d : DomNode) :
    ∀ n, html_to_node_inner d = some n → ∀ e ∈ elemsOfNode n, e.noEmptyOptional := by
  induction d using DomNode.rec
    (motive_2 := fun l => ∀ ns, childrenCollect l = some ns →
      ∀ e ∈ elemsOfList ns, e.noEmptyOptional) with
  | mk ty name content attributes childs ih =>
    intro n hn e he
    cases ty with
    | none => exact absurd hn (by simp [html_to_node_inner])
    | some t =>
      cases t with
      | TextNode =>
        rw [html_to_node_inner] at hn
        simp only [Option.some.injEq] at hn
        subst hn
        exact absurd he (by simp [elemsOfNode])
      | ElementNode =>
        rw [html_to_node_inner] at hn
        simp only [Option.some.injEq] at hn
        subst hn
        rw [elemsOfNode] at he
        rcases List.mem_cons.mp he with he1 | he2
        · subst he1
          constructor
          · -- the attrs field is never `some []`
            cases attributes with
            | nil => simp [NodeElement.attrs]
            | cons kv tl3 => simp [NodeElement.attrs]
          · -- the children field is never `some nil`
            cases childs with
            | nil => simp [NodeElement.children, DomList.isEmpty]
            | cons d2 tl2 =>
              simp only [NodeElement.children, DomList.isEmpty, Bool.false_eq_true,
                if_false]
              cases hc : childrenCollect (DomList.cons d2 tl2) with
              | none => simp
              | some ns =>
                simp only [ne_eq, OptNodeList.some.injEq]
                exact childrenCollect_cons_ne_nil d2 tl2 ns hc
        · -- elements strictly below come from the collected children
          rw [elemsOfElem] at he2
          cases childs with
          | nil =>
            simp only [DomList.isEmpty, if_true] at he2
            exact absurd he2 (by simp [elemsOfOpt])
          | cons d2 tl2 =>
            simp only [DomList.isEmpty, Bool.false_eq_true, if_false] at he2
            cases hc : childrenCollect (DomList.cons d2 tl2) with
            | none => rw [hc] at he2; exact absurd he2 (by simp [elemsOfOpt])
            | some ns =>
              rw [hc] at he2
              rw [elemsOfOpt] at he2
              exact ih ns hc e he2
      | CommentNode => exact absurd hn (by simp [html_to_node_inner])
      | AttributeNode => exact absurd hn (by simp [html_to_node_inner])
      | CDataSectionNode => exact absurd hn (by simp [html_to_node_inner])
      | EntityRefNode => exact absurd hn (by simp [html_to_node_inner])
      | EntityNode => exact absurd hn (by simp [html_to_node_inner])
      | PiNode => exact absurd hn (by simp [html_to_node_inner])
      | DocumentNode => exact absurd hn (by simp [html_to_node_inner])
      | DocumentTypeNode => exact absurd hn (by simp [html_to_node_inner])
      | DocumentFragNode => exact absurd hn (by simp [html_to_node_inner])
      | NotationNode => exact absurd hn (by simp [html_to_node_inner])
      | HtmlDocumentNode => exact absurd hn (by simp [html_to_node_inner])
      | DtdNode => exact absurd hn (by simp [html_to_node_inner])
  | nil =>
    rename_i ns h e he
    rw [childrenCollect] at h
    simp only [Option.some.injEq] at h
    subst h
    exact absurd he (by simp [elemsOfList])
  | cons d tl ihd ihtl =>
    rename_i ns h e he
    rw [childrenCollect] at h
    cases hi : html_to_node_inner d with
    | none => rw [hi] at h; exact absurd h (by simp)
    | some n =>
      rw [hi] at h
      cases hc : childrenCollect tl with
      | none => rw [hc] at h; exact absurd h (by simp)
      | some ns2 =>
        rw [hc] at h
        simp only [Option.some.injEq] at h
        subst h
        rw [elemsOfList] at he
        rcases List.mem_append.mp he with he1 | he2
        · exact ihd n hi e he1
        · exact ihtl ns2 hc e he2

/-- An element whose `attrs` field is absent serializes without an `attrs`
key: its top-level keys are `tag` and possibly `children`. -/
theorem attrs_key_absent (t : String) (c : OptNodeList) :
    "attrs" ∉ jsonTopKeys (nodeElementToJson (NodeElement.mk t none c)) := by
  cases c <;>
    simp [nodeElementToJson, childrenJsonFields, jsonTopKeys, JsonFields.keys]

/-- An element whose `children` field is absent serializes without a
`children` key: its top-level keys are `tag` and possibly `attrs`. -/
theorem children_key_absent (t : String) (a : Option (List (String × Option String))) :
    "children" ∉ jsonTopKeys (nodeElementToJson (NodeElement.mk t a OptNodeList.none)) := by
  cases a <;>
    simp [nodeElementToJson, childrenJsonFields, jsonTopKeys, JsonFields.keys]

/-- Attribute maps deserialize back from their serialization, entry for
entry in order. -/
theorem attrList_roundtrip (l : List (String × Option String)) :
    attrListFromFields (attrFieldsOf l) = some l := by
  induction l with
  | nil => rfl
  | cons kv tl ih =>
    obtain ⟨k, v⟩ := kv
    cases v <;> simp [attrFieldsOf, attrListFromFields, attrValueFromJson, ih]

/-! ### Claim theorems -/

/-- C1: for the input `<div><!-- comment --><span>x</span></div>` the claim
expects `[{"tag":"div","children":[{"tag":"span","children":["x"]}]}]` —
comment dropped, element sibling retained.  The code instead returns
`[{"tag":"div"}]`: the comment child makes the
`collect::<Option<Vec<_>>>()` of `lib.rs` line 485 return `None`, so the
`div` loses its entire `children` field, the retained sibling included.
This theorem evaluates the embedded conversion at that input. -/
theorem C1_div_comment_span_output :
    html_to_node (some docC1) = some "[\x7b\"tag\":\"div\"\x7d]" := by
  rfl

/-- C2: a node of non-text, non-element kind is claimed to produce no entry
anywhere in the output.  At the failing input `<p>a</p><!-- c --><p>b</p>`
the top-level comment does produce an entry: `html_to_node` serializes the
`Vec<Option<Node>>` of `lib.rs` line 460 directly, so the comment's `None`
becomes a literal JSON `null` between its siblings. -/
theorem C2_top_level_comment_null_entry :
    html_to_node (some docC2) =
      some "[\x7b\"tag\":\"p\",\"children\":[\"a\"]\x7d,null,\x7b\"tag\":\"p\",\"children\":[\"b\"]\x7d]" := by
  rfl

/-- C4: for the empty input fragment (parsed as a rooted document whose body
has no child nodes) the conversion succeeds and returns the empty JSON
sequence `[]`, not an error. -/
theorem C4_empty_fragment_empty_output :
    html_to_node (some docEmpty) = some "[]" := by
  rfl

/-- C7: for the input `<p>Hello, world</p>` the conversion returns exactly
`[{"tag":"p","children":["Hello, world"]}]`; in particular no `attrs` key is
emitted for the attribute-less element. -/
theorem C7_hello_world_output :
    html_to_node (some docHello) =
      some "[\x7b\"tag\":\"p\",\"children\":[\"Hello, world\"]\x7d]" := by
  rfl

/-- C9: for the input `<input disabled>` (one attribute with an absent
value) the conversion returns `[{"tag":"input","attrs":{"disabled":null}}]`:
the key is present and its value is serialized as `null`. -/
theorem C9_valueless_attribute_null :
    html_to_node (some docInput) =
      some "[\x7b\"tag\":\"input\",\"attrs\":\x7b\"disabled\":null\x7d\x7d]" := by
  rfl

/-- C8: every text node encountered during conversion is emitted as a
`Text` node carrying the DOM node's raw content verbatim — no trimming or
normalization is applied. -/
theorem C8_text_verbatim (d : DomNode) (h : d.get_type = some NodeType.TextNode) :
    html_to_node_inner d = some (Node.Text d.get_content) := by
  obtain ⟨ty, name, content, attributes, childs⟩ := d
  simp only [DomNode.get_type] at h
  subst h
  rfl

/-- Witness for C8 at a concrete text node whose content has leading and
trailing whitespace: the emitted text is byte-identical to the payload. -/
theorem C8_text_verbatim_witness :
    (DomNode.mk (some NodeType.TextNode) "text" "  hi  " [] .nil).get_type
        = some NodeType.TextNode ∧
      html_to_node_inner (DomNode.mk (some NodeType.TextNode) "text" "  hi  " [] .nil)
        = some (Node.Text "  hi  ") :=
  ⟨rfl, C8_text_verbatim (DomNode.mk (some NodeType.TextNode) "text" "  hi  " [] .nil) rfl⟩

/-- C3 counterexample: at the concrete inputs where the underlying parser
produces no document structure (the parser fails outright, or succeeds with
no root element), `html_to_node` does not fail with a `ParseError` — it
panics: the embedded function, whose `none` models the Rust
`.unwrap()` panic of `lib.rs` lines 450-455, produces no value at all.  No
error value can be returned: the Rust signature is `fn(&str) -> String`, and
the crate's `Error` taxonomy (the `Error` type above) has no parse
variant. -/
theorem C3_no_parse_error_panic :
    html_to_node none = none ∧ html_to_node (some (Document.mk none)) = none :=
  ⟨rfl, rfl⟩

/-- C3 amended: the conversion returns a value exactly when the parser
produced a document with a root element that has an element child (the
`body` located by `get_first_element_child`); in every such case — which
includes all malformed-but-recoverable inputs, since the parser's tolerant
recovery still yields a rooted document — it succeeds with a string and no
taxonomy error is raised; otherwise it panics rather than returning a
`ParseError`. -/
theorem C3_success_iff (p : Option Document) :
    (html_to_node p).isSome ↔
      ∃ doc root fec, p = some doc ∧ doc.get_root_element = some root ∧
        root.get_first_element_child = some fec := by
  cases p with
  | none => simp [html_to_node]
  | some doc =>
    cases hr : doc.get_root_element with
    | none => simp [html_to_node, hr]
    | some root =>
      cases hf : root.get_first_element_child with
      | none => simp [html_to_node, hr, hf]
      | some fec => simp [html_to_node, hr, hf]

/-- C5: every element produced by the conversion serializes without an
`attrs` key when it has no attributes (the conversion never produces a
present-but-empty attribute map, and an absent map is skipped by the
serializer), and without a `children` key when it has no retained children
(likewise, never a present-but-empty sequence). -/
theorem C5_omission_invariant (d : DomNode) (n : Node)
    (h : html_to_node_inner d = some n) (e : NodeElement) (he : e ∈ elemsOfNode n) :
    ((e.attrs = none ∨ e.attrs = some []) →
        "attrs" ∉ jsonTopKeys (nodeElementToJson e)) ∧
      ((e.children = OptNodeList.none ∨ e.children = OptNodeList.some NodeList.nil) →
        "children" ∉ jsonTopKeys (nodeElementToJson e)) := by
  have hgood := conversion_noEmptyOptional d n h e he
  obtain ⟨t, a, c⟩ := e
  obtain ⟨ha, hc⟩ := hgood
  constructor
  · rintro (h1 | h1)
    · simp only [NodeElement.attrs] at h1
      subst h1
      exact attrs_key_absent t c
    · exact absurd h1 ha
  · rintro (h1 | h1)
    · simp only [NodeElement.children] at h1
      subst h1
      exact children_key_absent t a
    · exact absurd h1 hc

/-- Witness for C5 at the converted `<p>Hello, world</p>` element: the
conversion produces the element with absent `attrs`, and its serialized
object indeed has no `attrs` key. -/
theorem C5_omission_invariant_witness :
    html_to_node_inner pHello
        = some (Node.NodeElement (NodeElement.mk "p" none
            (OptNodeList.some (NodeList.cons (Node.Text "Hello, world") NodeList.nil)))) ∧
      "attrs" ∉ jsonTopKeys (nodeElementToJson (NodeElement.mk "p" none
        (OptNodeList.some (NodeList.cons (Node.Text "Hello, world") NodeList.nil)))) :=
  ⟨rfl,
    (C5_omission_invariant pHello
        (Node.NodeElement (NodeElement.mk "p" none
          (OptNodeList.some (NodeList.cons (Node.Text "Hello, world") NodeList.nil))))
        rfl
        (NodeElement.mk "p" none
          (OptNodeList.some (NodeList.cons (Node.Text "Hello, world") NodeList.nil)))
        (by simp [elemsOfNode])).1 (.inl rfl)⟩

/-- C6 counterexample: the serialized bytes are not determined by the
content tree the markup denotes.  The two values below embed the same Rust
tree — one element whose `attrs` `HashMap` holds exactly the two entries
`href` and `src` — under its two possible map iteration orders, and their
serializations differ byte-wise.  Since `attrs` is a `HashMap`
(`types.rs` line 98) whose iteration order is neither the source insertion
order nor stable across runs, serializing the same markup's tree in two
runs can yield different strings, and the key order is not the insertion
order from the source markup. -/
theorem C6_hashmap_order_not_canonical :
    Json.render (nodeElementToJson (NodeElement.mk "a"
        (some [("href", some "x"), ("src", some "y")]) OptNodeList.none)) ≠
      Json.render (nodeElementToJson (NodeElement.mk "a"
        (some [("src", some "y"), ("href", some "x")]) OptNodeList.none)) := by
  decide

/-- C6 amended: serialization is a pure function of the in-memory tree
together with its attribute-map iteration order — the serialized `attrs`
keys appear exactly in the map's iteration order — but that order is a
`HashMap` iteration order, which the code does not constrain to the source
markup's insertion order, so cross-run byte-identical output is not
guaranteed for elements with more than one attribute. -/
theorem C6_keys_follow_iteration_order (l : List (String × Option String)) :
    jsonTopKeys (attrsToJson l) = l.map Prod.fst := by
  induction l with
  | nil => rfl
  | cons kv tl ih =>
    obtain ⟨k, v⟩ := kv
    simpa [attrsToJson, attrFieldsOf, jsonTopKeys, JsonFields.keys] using ih

/-- Witness for C6's amended statement at a concrete two-entry map. -/
theorem C6_keys_follow_iteration_order_witness :
    jsonTopKeys (attrsToJson [("href", some "x"), ("src", none)]) = ["href", "src"] :=
  C6_keys_follow_iteration_order [("href", some "x"), ("src", none)]

/-- C10: serializing any content tree with the serde-derived serializer and
deserializing the result with the serde-derived untagged deserializer
returns the same tree: strings decode back to `Text` and objects back to
`NodeElement`. -/
theorem C10_serde_roundtrip (n : Node) : nodeFromJson (nodeToJson n) = some n := by
  induction n using Node.rec
    (motive_2 := fun e => nodeFromJson (nodeElementToJson e) = some (Node.NodeElement e))
    (motive_3 := childrenRound)
    (motive_4 := fun cs => nodeListFromJsonList (nodeListToJsonList cs) = some cs) with
  | Text s => rfl
  | NodeElement e ih => simpa [nodeToJson] using ih
  | mk tag attrs children ih =>
    cases attrs with
    | none =>
      cases children with
      | none =>
        simp [nodeElementToJson, childrenJsonFields, nodeFromJson, visitFields]
      | some cs =>
        rw [childrenRound] at ih
        simp [nodeElementToJson, childrenJsonFields, nodeFromJson, visitFields, ih]
    | some a =>
      cases children with
      | none =>
        simp [nodeElementToJson, childrenJsonFields, nodeFromJson, visitFields,
          attrsValueFromJson, attrsToJson, attrList_roundtrip]
      | some cs =>
        rw [childrenRound] at ih
        simp [nodeElementToJson, childrenJsonFields, nodeFromJson, visitFields,
          attrsValueFromJson, attrsToJson, attrList_roundtrip, ih]
  | none => trivial
  | some cs ih => exact ih
  | nil => rfl
  | cons n tl ihn ihtl =>
    simp [nodeListToJsonList, nodeListFromJsonList, ihn, ihtl]

end TelegraphRs
